import Mathlib

/-!
# Verification of the availability-and-priority computation engine

A shallow embedding, in Lean 4, of the core computation functions of the
study-scheduling web application:

* `src/priority.js` — `calculatePriority`, `calculateUrgency`,
  `calculateSlackMargin`;
* `src/features/tasks/render.js` — `mergeIntervals`, `studyMinutesUntil`,
  `priorityForTask`;
* `src/calendar/range.js` — `startOfWeekLocal`, `slotKeyFor`;
* `src/calendar/grid.js` — the visible-week block computation of
  `refilterVisibleWeek`;
* `src/auth/ui.js` / `src/services/firestore.js` — the per-week exclusion
  update semantics of `watchCurrentWeekExclusions` / `watchBaseExclusions`.

Modelling conventions:

* JavaScript `Date` values are modelled by their millisecond timestamps as
  `Int` (the value returned by `getTime()`); comparisons between `Date`s in
  the source compare exactly these numbers.
* Local-wall-clock computations (`setHours(0,0,0,0)`, `getDay()`,
  `setDate(...)`) are modelled for a fixed-offset timezone: `tz` is the
  value of `getTimezoneOffset()` in minutes, so that local wall-clock
  milliseconds are `t - tz*60000`.  (The specification restricts itself to
  local-wall-clock semantics, with no calendar-aware timezone conversion.)
* JavaScript numbers used by the priority formulas are modelled as `ℚ`;
  the decimal literals `1.2`, `0.15`, …, `0.001` of the source denote the
  corresponding rationals.
* A JavaScript array cell that may hold `undefined` is modelled as
  `Option _`; a thrown `TypeError` is modelled as `Except.error`.
-/

namespace StudyPlan

/-! ## Embedding of `src/priority.js` -/

/-- Embeds `calculatePriority(urgency, importance)` from `src/priority.js`:
`urgency * 1.2 + importance`. -/
def calculatePriority (urgency importance : ℚ) : ℚ :=
  let urgencyMultiplier : ℚ := 1.2
  urgency * urgencyMultiplier + importance

/-- Embeds `calculateUrgency(margin)` from `src/priority.js`: the
four-threshold cascade of strict `<` comparisons. -/
def calculateUrgency (margin : ℚ) : ℤ :=
  if margin < 0.15 then 1
  else if margin < 0.30 then 2
  else if margin < 0.45 then 3
  else if margin < 0.60 then 4
  else 5

/-- Embeds `calculateSlackMargin(timeNeeded, timeAvailable)` from
`src/priority.js`: `timeNeeded / Math.max(timeAvailable, 0.001)`. -/
def calculateSlackMargin (timeNeeded timeAvailable : ℚ) : ℚ :=
  timeNeeded / max timeAvailable 0.001

/-! ## Embedding of `mergeIntervals` from `src/features/tasks/render.js` -/

/-- A time interval `{ start, end }` whose bounds are `Date`s, modelled by
their millisecond timestamps.  The JavaScript field `end` is rendered as
`stop` (`end` is a Lean keyword). -/
structure Interval where
  start : Int
  stop : Int
deriving DecidableEq, Repr

/-- One step of the merge loop of `mergeIntervals`, acting on the output
array in reverse order (head = `merged[merged.length - 1]`):
if `cur.start <= prev.end` extend `prev.end` to `max(prev.end, cur.end)`
in place, else push `cur`. -/
def mergeStep (acc : List Interval) (cur : Interval) : List Interval :=
  match acc with
  | [] => [cur]
  | prev :: rest =>
    if cur.start ≤ prev.stop then
      if prev.stop < cur.stop then { prev with stop := cur.stop } :: rest
      else prev :: rest
    else cur :: prev :: rest

/-- Embeds `mergeIntervals(intervals)` from
`src/features/tasks/render.js`.  The source returns early with `[]` only
when the *unfiltered* input is empty; it then filters out degenerate
intervals (`end <= start`), sorts by `start` (a stable sort, as JavaScript
`Array.prototype.sort`), seeds the output with `[arr[0]]`, and folds.
When a non-empty input filters down to an empty `arr`, the seed `[arr[0]]`
is the one-element array `[undefined]` — modelled here as `[none]`. -/
def mergeIntervalsJS (intervals : List Interval) : List (Option Interval) :=
  if intervals.isEmpty then []
  else
    let arr := (intervals.filter fun i => i.start < i.stop).mergeSort
      fun a b => a.start ≤ b.start
    match arr with
    | [] => [none]
    | h :: t => ((t.foldl mergeStep [h]).reverse).map some

/-- Embeds applying `mergeIntervals` to an array that may contain
`undefined` cells (the output type of `mergeIntervalsJS`).  On a non-empty
input, the source first maps `i => ({start: new Date(i.start), ...})` over
the array; reading `i.start` of an `undefined` cell throws a `TypeError`,
modelled as `Except.error`. -/
def mergeIntervalsJSOnOpt (intervals : List (Option Interval)) :
    Except String (List (Option Interval)) :=
  if intervals.isEmpty then .ok []
  else if intervals.all Option.isSome then
    .ok (mergeIntervalsJS (intervals.filterMap id))
  else .error "TypeError"

/-! ## Theorems for the interval merge utility -/

/-- C1 (failing input): on the empty list `mergeIntervals` returns the
empty list, but on the non-empty all-degenerate input `[{start: 0, end: 0}]`
it returns the one-element array `[undefined]` (the seed `[arr[0]]` taken
from the already-empty filtered array) — not the empty list the
specification requires. -/
theorem mergeIntervals_degenerate_bug :
    mergeIntervalsJS [] = [] ∧ mergeIntervalsJS [⟨0, 0⟩] = [none] := by
  constructor <;> simp [mergeIntervalsJS]

/-- C2 (failing input): `merge(merge(L))` is not defined for
`L = [{start: 0, end: 0}]`: the inner call returns `[undefined]`, and the
outer call throws a `TypeError` reading `.start` of `undefined`, so
idempotence fails on all-degenerate non-empty lists. -/
theorem mergeIntervals_idempotence_bug :
    mergeIntervalsJSOnOpt (mergeIntervalsJS [⟨0, 0⟩]) = .error "TypeError" := by
  have h : mergeIntervalsJS [⟨0, 0⟩] = [none] := by simp [mergeIntervalsJS]
  rw [h]
  rfl

/-! ## Theorems for the priority formulas -/

/-- C3: `calculateUrgency` is exactly the step function
`<0.15→1, <0.30→2, <0.45→3, <0.60→4, else→5` with every boundary exclusive
on the upper side; in particular `calculateUrgency 0.15 = 2`,
`calculateUrgency 0.30 = 3`, `calculateUrgency 0.60 = 5`, and
`calculateUrgency 0.14 = 1`, `calculateUrgency 0.29 = 2`,
`calculateUrgency 0.59 = 4`. -/
theorem calculateUrgency_step (m : ℚ) :
    (m < 0.15 → calculateUrgency m = 1) ∧
    (0.15 ≤ m ∧ m < 0.30 → calculateUrgency m = 2) ∧
    (0.30 ≤ m ∧ m < 0.45 → calculateUrgency m = 3) ∧
    (0.45 ≤ m ∧ m < 0.60 → calculateUrgency m = 4) ∧
    (0.60 ≤ m → calculateUrgency m = 5) ∧
    calculateUrgency 0.15 = 2 ∧ calculateUrgency 0.30 = 3 ∧
    calculateUrgency 0.60 = 5 ∧ calculateUrgency 0.14 = 1 ∧
    calculateUrgency 0.29 = 2 ∧ calculateUrgency 0.59 = 4 := by
  unfold calculateUrgency
  refine ⟨fun h => by simp [h], fun ⟨h1, h2⟩ => ?_, fun ⟨h1, h2⟩ => ?_,
    fun ⟨h1, h2⟩ => ?_, fun h => ?_, by norm_num, by norm_num, by norm_num,
    by norm_num, by norm_num, by norm_num⟩
  · rw [if_neg (by linarith), if_pos h2]
  · rw [if_neg (by linarith), if_neg (by linarith), if_pos h2]
  · rw [if_neg (by linarith), if_neg (by linarith), if_neg (by linarith),
      if_pos h2]
  · rw [if_neg (by linarith), if_neg (by linarith), if_neg (by linarith),
      if_neg (by linarith)]

/-- Witness for C3: the step theorem applied at the concrete margins `0`
and `1/2`, discharging the interval hypotheses there. -/
theorem calculateUrgency_step_witness :
    calculateUrgency 0 = 1 ∧ calculateUrgency (1/2) = 4 :=
  ⟨(calculateUrgency_step 0).1 (by norm_num),
   (calculateUrgency_step (1/2)).2.2.2.1 ⟨by norm_num, by norm_num⟩⟩

/-- C4: `calculateSlackMargin` equals `timeNeeded / max(timeAvailable, 0.001)`,
the denominator is never zero (for every `timeAvailable`, including `0` and
negative values), and `calculateSlackMargin 5 0 = 5000`. -/
theorem calculateSlackMargin_spec (timeNeeded timeAvailable : ℚ) :
    calculateSlackMargin timeNeeded timeAvailable
      = timeNeeded / max timeAvailable 0.001 ∧
    max timeAvailable (0.001 : ℚ) ≠ 0 ∧
    calculateSlackMargin 5 0 = 5000 := by
  refine ⟨rfl, ?_, ?_⟩
  · have h : (0.001 : ℚ) ≤ max timeAvailable 0.001 := le_max_right _ _
    intro hc
    rw [hc] at h
    norm_num at h
  · unfold calculateSlackMargin
    norm_num

/-- C5: `calculatePriority` equals `urgency * 1.2 + importance`, and
`calculatePriority 2 3 = 5.4`. -/
theorem calculatePriority_spec (urgency importance : ℚ) :
    calculatePriority urgency importance = urgency * 1.2 + importance ∧
    calculatePriority 2 3 = 5.4 := by
  refine ⟨rfl, ?_⟩
  unfold calculatePriority
  norm_num

/-! ## Time/week primitives (`src/calendar/range.js`, fixed-offset model) -/

/-- Milliseconds in a day. -/
def dayMs : Int := 86400000

/-- Milliseconds in an hour. -/
def hourMs : Int := 3600000

/-- Local wall-clock milliseconds of the instant `t` for timezone offset
`tz` minutes (`tz = getTimezoneOffset()`, local = utc − tz·60000). -/
def localOf (tz t : Int) : Int := t - tz * 60000

/-- The (floor) local calendar-day number of `t` since the epoch. -/
def localDayIndex (tz t : Int) : Int := localOf tz t / dayMs

/-- Embeds `x.setHours(0, 0, 0, 0)`: the instant of local midnight of the
day containing `t`. -/
def localMidnight (tz t : Int) : Int := localDayIndex tz t * dayMs + tz * 60000

/-- Embeds JavaScript `Date.prototype.getDay` (0 = Sunday … 6 = Saturday);
the epoch day, day number 0, was a Thursday. -/
def getDayJS (tz t : Int) : Int := (localDayIndex tz t + 4) % 7

/-- Embeds `startOfWeekLocal(d)` from `src/calendar/range.js` (and the
identical computation in `src/calendar/helpers.js`): shift `getDay()` so
that Monday is 0 and Sunday is 6, reset the time to local midnight, and
move backwards that many days. -/
def startOfWeekLocal (tz t : Int) : Int :=
  let day := (getDayJS tz t + 6) % 7
  localMidnight tz t - day * dayMs

/-- The proposition that `x` is a local Monday at 00:00:00.000: its local
wall-clock value is a whole number of days `k`, and day number `k` has
JavaScript weekday 1 (Monday). -/
def IsMondayMidnight (tz x : Int) : Prop :=
  ∃ k : Int, localOf tz x = k * dayMs ∧ (k + 4) % 7 = 1

/-! ## Theorem for `startOfWeekLocal` (C10) -/

/-- C10: `startOfWeekLocal` returns the local Monday 00:00:00.000 of the
week containing the instant: the result is a Monday midnight, it is at
most the input, and the input is less than seven days after it; moreover
on a Sunday (JavaScript `getDay() = 0`) it moves back exactly six days
from that day's local midnight. -/
theorem startOfWeekLocal_spec (tz t : Int) :
    IsMondayMidnight tz (startOfWeekLocal tz t) ∧
    startOfWeekLocal tz t ≤ t ∧
    t < startOfWeekLocal tz t + 7 * dayMs ∧
    (getDayJS tz t = 0 → startOfWeekLocal tz t = localMidnight tz t - 6 * dayMs) := by
  refine ⟨⟨localDayIndex tz t - (getDayJS tz t + 6) % 7, ?_, ?_⟩, ?_, ?_, ?_⟩
  · simp only [startOfWeekLocal, localMidnight, localOf]
    ring
  · simp only [getDayJS, localDayIndex, localOf, dayMs]
    omega
  · simp only [startOfWeekLocal, localMidnight, getDayJS, localDayIndex,
      localOf, dayMs]
    omega
  · simp only [startOfWeekLocal, localMidnight, getDayJS, localDayIndex,
      localOf, dayMs]
    omega
  · intro h
    simp only [startOfWeekLocal, h]
    norm_num

/-- Witness for C10: the theorem applied at `tz = 0`,
`t = 259200000` (epoch day 3, a Sunday), discharging the Sunday
hypothesis: the start of that week is Monday `-259200000` (epoch day −3),
six days before Sunday's midnight. -/
theorem startOfWeekLocal_spec_witness :
    startOfWeekLocal 0 259200000 = localMidnight 0 259200000 - 6 * dayMs :=
  (startOfWeekLocal_spec 0 259200000).2.2.2 (by decide)

/-! ## Per-week exclusion update semantics
(`watchCurrentWeekExclusions` in `src/auth/ui.js`,
`watchBaseExclusions` in `src/services/firestore.js`) -/

/-- The exclusion-related slice of the application state: the current
week's exclusion set (`state.baseExclusions`) and the per-week cache
(`state.baseExclusionsByWeek`, a `Map` keyed by WeekId).  WeekIds — the
`YYYY-MM-DD` strings of a week's local Monday — are modelled by the Monday
midnight instant itself, to which they correspond one-to-one. -/
structure ExclState where
  baseExclusions : Finset Int
  baseExclusionsByWeek : Int → Option (Finset Int)

/-- Embeds the snapshot construction of `watchBaseExclusions` in
`src/services/firestore.js`: `new Set(slots.map(Number))` — a fresh set
built from the delivered document alone. -/
def snapshotExclusionSet (slots : List Int) : Finset Int := slots.toFinset

/-- Embeds the body of the subscription callback of
`watchCurrentWeekExclusions` in `src/auth/ui.js`:
`state.baseExclusions = setForWeek` and
`state.baseExclusionsByWeek.set(weekId, setForWeek)` — both plain
assignments/`Map.set`, replacing (never unioning with) the previous
value for that WeekId. -/
def applyExclusionUpdate (st : ExclState) (weekId : Int)
    (setForWeek : Finset Int) : ExclState where
  baseExclusions := setForWeek
  baseExclusionsByWeek := fun w =>
    if w = weekId then some setForWeek else st.baseExclusionsByWeek w

/-- C9: each exclusion update fully replaces both the current-week set and
the per-week cache entry for that WeekId; in particular applying the
update `{10, 20}` followed by the update `{30}` for the same WeekId leaves
exactly `{30}`, not `{10, 20, 30}`.  Stated for every starting state,
every WeekId and every pair of delivered snapshots. -/
theorem exclusionUpdate_replaces (st : ExclState) (w : Int)
    (s₁ s₂ : Finset Int) :
    (applyExclusionUpdate (applyExclusionUpdate st w s₁) w s₂).baseExclusions
        = s₂ ∧
    (applyExclusionUpdate (applyExclusionUpdate st w s₁) w s₂).baseExclusionsByWeek
        w = some s₂ ∧
    (applyExclusionUpdate (applyExclusionUpdate st w
        (snapshotExclusionSet [10, 20])) w
        (snapshotExclusionSet [30])).baseExclusions = {30} ∧
    (applyExclusionUpdate (applyExclusionUpdate st w
        (snapshotExclusionSet [10, 20])) w
        (snapshotExclusionSet [30])).baseExclusionsByWeek w = some {30} := by
  refine ⟨rfl, by simp [applyExclusionUpdate], ?_, ?_⟩
  · simp [applyExclusionUpdate, snapshotExclusionSet]
  · simp [applyExclusionUpdate, snapshotExclusionSet]

/-! ## Visible-week block computation
(`refilterVisibleWeek` in `src/calendar/grid.js`) -/

/-- An entry of the base pattern: `{ weekday: 0..6, hour: 0..23 }`
(weekday 0 = Monday). -/
structure PatternEntry where
  weekday : Int
  hour : Int
deriving DecidableEq, Repr

/-- A tagged study block as stored in `state.studyBlocks`: a persisted
block (`isBase = false`, no `_base` flag in the source) or a
base-pattern-derived block (`isBase = true`, `_base: true`). -/
structure TBlock where
  start : Int
  stop : Int
  isBase : Bool
deriving DecidableEq, Repr

/-- Embeds `slotKeyFor(weekStart, weekday, hour)` from
`src/calendar/range.js`: clone `weekStart`, `setDate(getDate() + weekday)`
(add whole days), then `setHours(hour, 0, 0, 0)` (local midnight of the
reached day plus `hour` hours); the slot key is the resulting timestamp. -/
def slotKeyFor (tz weekStart weekday hour : Int) : Int :=
  localMidnight tz (weekStart + weekday * dayMs) + hour * hourMs

/-- Embeds step 2 of `refilterVisibleWeek`: expansion of the base pattern
into this week's derived blocks.  For each pattern entry, compute the slot
key; skip it when the key is in `state.baseExclusions`; skip it when the
1-hour block does not intersect the visible week
(`endDate <= weekStart || startDate >= weekEnd`); otherwise emit the block
`[slotKey, slotKey + 1h)` tagged `_base: true`. -/
def expandBase (tz : Int) (pattern : List PatternEntry)
    (exclusions : Finset Int) (weekStart weekEnd : Int) : List TBlock :=
  pattern.filterMap fun p =>
    let slotKey := slotKeyFor tz weekStart p.weekday p.hour
    if slotKey ∈ exclusions then none
    else if slotKey + hourMs ≤ weekStart ∨ weekEnd ≤ slotKey then none
    else some ⟨slotKey, slotKey + hourMs, true⟩

/-- The comparator of step 4 of `refilterVisibleWeek`, as a total Boolean
order: ascending `start`, ties broken with persisted (`_base` absent)
before base (`_base: true`). -/
def blockLE (a b : TBlock) : Bool :=
  a.start < b.start || (a.start == b.start && (!a.isBase || b.isBase))

/-- Embeds the visible-week block list computed by `refilterVisibleWeek`
in `src/calendar/grid.js` (the value stored into `state.studyBlocks`):
1. keep the persisted blocks of `state.studyAll` that intersect the
   visible week `[weekStart, weekEnd)` with `weekEnd = weekStart + 7 days`;
2. expand the base pattern minus exclusions (`expandBase`);
3. keep only base blocks overlapping no persisted block;
4. sort by start time, persisted before base on ties (a stable sort, as
   JavaScript `Array.prototype.sort`). -/
def visibleWeekBlocks (tz : Int) (studyAll : List Interval)
    (pattern : List PatternEntry) (exclusions : Finset Int)
    (weekStart : Int) : List TBlock :=
  let weekEnd := weekStart + 7 * dayMs
  let persisted := (studyAll.filter fun b =>
    b.start < weekEnd && b.stop > weekStart).map fun b =>
      (⟨b.start, b.stop, false⟩ : TBlock)
  let base := expandBase tz pattern exclusions weekStart weekEnd
  let merged := persisted ++ base.filter fun bb =>
    !(persisted.any fun pb => pb.start < bb.stop && pb.stop > bb.start)
  merged.mergeSort blockLE

/-- The block comparator is transitive. -/
theorem blockLE_trans (a b c : TBlock) :
    blockLE a b = true → blockLE b c = true → blockLE a c = true := by
  rcases a with ⟨as, ae, ab⟩
  rcases b with ⟨bs, be, bb⟩
  rcases c with ⟨cs, ce, cb⟩
  simp only [blockLE, Bool.or_eq_true, Bool.and_eq_true, decide_eq_true_eq,
    beq_iff_eq, Bool.not_eq_true']
  cases ab <;> cases bb <;> cases cb <;> simp <;> omega

/-- The block comparator is total. -/
theorem blockLE_total (a b : TBlock) : blockLE a b || blockLE b a := by
  rcases a with ⟨as, ae, ab⟩
  rcases b with ⟨bs, be, bb⟩
  simp only [blockLE, Bool.or_eq_true, Bool.and_eq_true, decide_eq_true_eq,
    beq_iff_eq, Bool.not_eq_true']
  cases ab <;> cases bb <;> simp <;> omega

/-- C6: the visible-week block list of `refilterVisibleWeek`
(1) contains every persisted interval that overlaps the visible week
`[weekStart, weekStart + 7 days)`, (2) contains no base-derived block that
overlaps any of those persisted intervals, and (3) is sorted by start time
ascending with ties broken persisted-before-base (the order `blockLE`). -/
theorem visibleWeekBlocks_spec (tz : Int) (studyAll : List Interval)
    (pattern : List PatternEntry) (exclusions : Finset Int)
    (weekStart : Int) :
    (∀ b ∈ studyAll, b.start < weekStart + 7 * dayMs → weekStart < b.stop →
      (⟨b.start, b.stop, false⟩ : TBlock)
        ∈ visibleWeekBlocks tz studyAll pattern exclusions weekStart) ∧
    (∀ x ∈ visibleWeekBlocks tz studyAll pattern exclusions weekStart,
      x.isBase = true →
      ∀ b ∈ studyAll, b.start < weekStart + 7 * dayMs → weekStart < b.stop →
        ¬(b.start < x.stop ∧ x.start < b.stop)) ∧
    (visibleWeekBlocks tz studyAll pattern exclusions weekStart).Pairwise
      fun a b => blockLE a b = true := by
  refine ⟨?_, ?_, ?_⟩
  · intro b hb h1 h2
    simp only [visibleWeekBlocks, List.mem_mergeSort, List.mem_append,
      List.mem_map, List.mem_filter, Bool.and_eq_true, decide_eq_true_eq]
    exact Or.inl ⟨b, ⟨hb, h1, h2⟩, rfl⟩
  · intro x hx hbase b hb h1 h2 hover
    simp only [visibleWeekBlocks, List.mem_mergeSort, List.mem_append,
      List.mem_map, List.mem_filter, Bool.and_eq_true, decide_eq_true_eq,
      Bool.not_eq_true', List.any_eq_false] at hx
    rcases hx with ⟨i, _, hxi⟩ | ⟨_, hnone⟩
    · rw [← hxi] at hbase
      simp at hbase
    · have := hnone ⟨b.start, b.stop, false⟩
        ⟨b, ⟨hb, h1, h2⟩, rfl⟩
      simp only [Bool.and_eq_true, decide_eq_true_eq, not_and] at this
      exact absurd hover.2 (by simpa using this hover.1)
  · exact List.sorted_mergeSort blockLE_trans blockLE_total _

/-- Witness for C6: the theorem applied at a concrete state — one
persisted block `[0, 100)` in week `[0, 7 days)`, empty pattern, no
exclusions, `tz = 0` — discharging the overlap hypotheses there. -/
theorem visibleWeekBlocks_spec_witness :
    (⟨0, 100, false⟩ : TBlock) ∈ visibleWeekBlocks 0 [⟨0, 100⟩] [] ∅ 0 :=
  (visibleWeekBlocks_spec 0 [⟨0, 100⟩] [] ∅ 0).1 ⟨0, 100⟩ (by decide)
    (by decide) (by decide)

/-- When `weekStart` is a local midnight (as `visibleWeekRange` always
produces), the slot key is `weekStart + weekday` days `+ hour` hours. -/
theorem slotKeyFor_of_midnight (tz weekStart weekday hour : Int)
    (hmid : localMidnight tz weekStart = weekStart) :
    slotKeyFor tz weekStart weekday hour
      = weekStart + weekday * dayMs + hour * hourMs := by
  simp only [slotKeyFor, localMidnight, localDayIndex, localOf, dayMs,
    hourMs] at hmid ⊢
  omega

/-- C7: base-pattern expansion for the visible week.  (1) Every pattern
entry `(weekday ∈ [0,6], hour ∈ [0,23])` whose slot key for this week is
not excluded contributes the 1-hour block `[slotKey, slotKey + 1h)`;
(2) every emitted block has a non-excluded start equal to some entry's
slot key, length exactly one hour, and the base tag; (3) in particular,
with pattern `[{weekday: 0, hour: 9}]` and that slot's key excluded, the
visible-week blocks contain zero pattern-derived blocks. -/
theorem expandBase_spec (tz : Int) (pattern : List PatternEntry)
    (exclusions : Finset Int) (weekStart : Int) :
    (∀ p ∈ pattern, localMidnight tz weekStart = weekStart →
      0 ≤ p.weekday → p.weekday ≤ 6 → 0 ≤ p.hour → p.hour ≤ 23 →
      slotKeyFor tz weekStart p.weekday p.hour ∉ exclusions →
      (⟨slotKeyFor tz weekStart p.weekday p.hour,
        slotKeyFor tz weekStart p.weekday p.hour + hourMs, true⟩ : TBlock)
        ∈ expandBase tz pattern exclusions weekStart
            (weekStart + 7 * dayMs)) ∧
    (∀ x ∈ expandBase tz pattern exclusions weekStart
        (weekStart + 7 * dayMs),
      x.start ∉ exclusions ∧ x.stop = x.start + hourMs ∧ x.isBase = true ∧
      ∃ p ∈ pattern, x.start = slotKeyFor tz weekStart p.weekday p.hour) ∧
    (∀ studyAll : List Interval,
      (visibleWeekBlocks tz studyAll [⟨0, 9⟩]
        {slotKeyFor tz weekStart 0 9} weekStart).filter
          (fun x => x.isBase) = []) := by
  refine ⟨?_, ?_, ?_⟩
  · intro p hp hmid hw0 hw6 hh0 hh23 hexcl
    have hkey := slotKeyFor_of_midnight tz weekStart p.weekday p.hour hmid
    simp only [expandBase, List.mem_filterMap]
    refine ⟨p, hp, ?_⟩
    rw [if_neg hexcl, if_neg ?_]
    simp only [hourMs, dayMs] at hkey ⊢
    omega
  · intro x hx
    simp only [expandBase, List.mem_filterMap] at hx
    obtain ⟨p, hp, hfp⟩ := hx
    by_cases hexcl : slotKeyFor tz weekStart p.weekday p.hour ∈ exclusions
    · rw [if_pos hexcl] at hfp
      exact absurd hfp (by simp)
    · rw [if_neg hexcl] at hfp
      by_cases hguard : slotKeyFor tz weekStart p.weekday p.hour + hourMs
          ≤ weekStart ∨ weekStart + 7 * dayMs
          ≤ slotKeyFor tz weekStart p.weekday p.hour
      · rw [if_pos hguard] at hfp
        exact absurd hfp (by simp)
      · rw [if_neg hguard] at hfp
        obtain rfl := Option.some.inj hfp
        exact ⟨hexcl, rfl, rfl, p, hp, rfl⟩
  · intro studyAll
    have hbase : expandBase tz [⟨0, 9⟩]
        ({slotKeyFor tz weekStart 0 9} : Finset Int) weekStart
        (weekStart + 7 * dayMs) = [] := by
      simp [expandBase]
    rw [List.filter_eq_nil_iff]
    intro x hx
    simp only [visibleWeekBlocks, hbase, List.filter_nil, List.append_nil,
      List.mem_mergeSort, List.mem_map, List.mem_filter] at hx
    obtain ⟨b, _, hxb⟩ := hx
    rw [← hxb]
    simp

/-- Witness for C7: the expansion theorem applied at `tz = 0`,
`weekStart = 0` (a local midnight), pattern `[{weekday: 0, hour: 9}]` and
no exclusions: the Monday 9am block is emitted. -/
theorem expandBase_spec_witness :
    (⟨slotKeyFor 0 0 0 9, slotKeyFor 0 0 0 9 + hourMs, true⟩ : TBlock)
      ∈ expandBase 0 [⟨0, 9⟩] ∅ 0 (0 + 7 * dayMs) :=
  (expandBase_spec 0 [⟨0, 9⟩] ∅ 0).1 ⟨0, 9⟩ (by decide) (by decide)
    (by decide) (by decide) (by decide) (by decide) (by decide)

/-! ## Availability and priority per task
(`studyMinutesUntil`, `priorityForTask` in `src/features/tasks/render.js`) -/

/-- The slice of the global state read by `studyMinutesUntil`:
all persisted study blocks, the base pattern, and the per-week exclusion
cache (`state.baseExclusionsByWeek`, keyed by WeekId, here modelled by the
week's local Monday midnight instant, see `ExclState`).  A missing cache
entry (`undefined`) is `none`. -/
structure ScheduleState where
  studyAll : List Interval
  baseStudyPattern : List PatternEntry
  baseExclusionsByWeek : Int → Option (Finset Int)

/-- Embeds loop 1 of `studyMinutesUntil`: clip every persisted block that
intersects `[now, due]` to that window, keeping positive-length segments. -/
def clipPersisted (studyAll : List Interval) (n due : Int) : List Interval :=
  studyAll.filterMap fun b =>
    if b.start < due ∧ n < b.stop then
      if max b.start n < min b.stop due then
        some ⟨max b.start n, min b.stop due⟩
      else none
    else none

/-- Embeds the day loop bounds of `studyMinutesUntil`:
`for (let t = startDay.getTime(); t <= due.getTime(); t += dayMs)` with
`startDay` the local midnight of `now`. -/
def dayStarts (tz n due : Int) : List Int :=
  let startDay := localMidnight tz n
  if startDay ≤ due then
    (List.range ((due - startDay) / dayMs + 1).toNat).map fun k =>
      startDay + k * dayMs
  else []

/-- Embeds the body of the day loop of `studyMinutesUntil` for one day
start `d`: compute the day's weekday (Monday = 0), the Monday of its week
(the WeekId used to look up that week's exclusion set), and for every
pattern entry on this weekday whose slot is not excluded, clip the 1-hour
slot `[slotStart, slotStart + 1h)` to `[now, due]`. -/
def patternClipsForDay (tz : Int) (st : ScheduleState) (n due d : Int) :
    List Interval :=
  let weekday := (getDayJS tz d + 6) % 7
  let weekStart := localMidnight tz (d - weekday * dayMs)
  let excl := st.baseExclusionsByWeek weekStart
  st.baseStudyPattern.filterMap fun p =>
    if p.weekday = weekday then
      let slotStart := localMidnight tz d + p.hour * hourMs
      let slotEnd := slotStart + hourMs
      let excluded := match excl with
        | some s => decide (slotStart ∈ s)
        | none => false
      if excluded then none
      else if slotStart < due ∧ n < slotEnd then
        if max slotStart n < min slotEnd due then
          some ⟨max slotStart n, min slotEnd due⟩
        else none
      else none
    else none

/-- Embeds `studyMinutesUntil(dueDateStr, state, now)` from
`src/features/tasks/render.js`.  The due-date string is represented by its
parse result `due?` (`new Date(dueDateStr + "T23:59:59")`): `none` for an
unparsable date.  An invalid or already-passed due date returns 0 minutes;
otherwise the persisted clips and the pattern clips are merged with
`mergeIntervals` and the merged durations are summed in minutes (`none`
models the `TypeError` thrown if the merge ever yielded an `undefined`
cell). -/
def studyMinutesUntil (tz : Int) (due? : Option Int) (st : ScheduleState)
    (n : Int) : Option ℚ :=
  match due? with
  | none => some 0
  | some due =>
    if due ≤ n then some 0
    else
      let clipped := clipPersisted st.studyAll n due ++
        (dayStarts tz n due).flatMap (patternClipsForDay tz st n due)
      let merged := mergeIntervalsJS clipped
      if merged.all Option.isSome then
        some ((merged.filterMap id).foldl
          (fun acc seg => acc + ((seg.stop - seg.start : ℤ) : ℚ) / 60000) 0)
      else none

/-- A task as read by `priorityForTask`: the parsed end-of-day deadline
(`none` when `dueDate` is unparsable), the effort estimate in hours, and
the importance (the source's `task.importance ?? 3` default is applied at
construction). -/
structure Task where
  dueDeadline : Option Int
  timeNeeded : ℚ
  importance : ℚ

/-- The record returned by `priorityForTask`. -/
structure PriorityInfo where
  timeAvail : ℚ
  margin : ℚ
  urgency : ℤ
  score : ℚ
deriving DecidableEq, Repr

/-- Embeds `priorityForTask(task, state, now)` from
`src/features/tasks/render.js`: hours available before the deadline, slack
margin, urgency level and composite score. -/
def priorityForTask (tz : Int) (task : Task) (st : ScheduleState)
    (n : Int) : Option PriorityInfo :=
  (studyMinutesUntil tz task.dueDeadline st n).map fun studyMins =>
    let timeAvail := studyMins / 60
    let margin := calculateSlackMargin task.timeNeeded timeAvail
    let urgency := calculateUrgency margin
    let score := calculatePriority (urgency : ℚ) task.importance
    ⟨timeAvail, margin, urgency, score⟩

/-! ## Theorems for the degraded (unparsable/past due date) path (C8) -/

/-- C8 (amended): for every task whose due date is unparsable or whose
end-of-day deadline is at or before the current instant, and whose
`timeNeeded` is positive, `priorityForTask` returns a defined result
(never an error) with `timeAvailableHours = 0` and slack margin
`timeNeeded / 0.001 = timeNeeded * 1000`; the urgency level is the one the
step function assigns to that margin, and it equals 5 exactly when
`timeNeeded ≥ 0.0006` (for smaller positive efforts the margin falls below
the `0.60` threshold, so the urgency is below 5). -/
theorem priorityForTask_degraded (tz : Int) (task : Task)
    (st : ScheduleState) (n : Int)
    (hdue : task.dueDeadline = none ∨
      ∃ d, task.dueDeadline = some d ∧ d ≤ n)
    (hpos : 0 < task.timeNeeded) :
    ∃ r, priorityForTask tz task st n = some r ∧
      r.timeAvail = 0 ∧
      r.margin = task.timeNeeded * 1000 ∧
      r.urgency = calculateUrgency (task.timeNeeded * 1000) ∧
      ((3 / 5000 : ℚ) ≤ task.timeNeeded → r.urgency = 5) := by
  have hmins : studyMinutesUntil tz task.dueDeadline st n = some 0 := by
    rcases hdue with h | ⟨d, hd, hle⟩
    · rw [h]
      rfl
    · rw [hd]
      simp [studyMinutesUntil, hle]
  have hmargin : calculateSlackMargin task.timeNeeded ((0 : ℚ) / 60)
      = task.timeNeeded * 1000 := by
    unfold calculateSlackMargin
    rw [zero_div, max_eq_right (by norm_num : (0 : ℚ) ≤ 0.001),
      div_eq_mul_inv]
    norm_num
  refine ⟨_, by rw [priorityForTask, hmins]; rfl, by norm_num, ?_, ?_, ?_⟩
  · exact hmargin
  · simp only [hmargin]
  · intro hbig
    simp only [hmargin]
    unfold calculateUrgency
    rw [if_neg (by nlinarith), if_neg (by nlinarith), if_neg (by nlinarith),
      if_neg (by nlinarith)]

/-- Witness for C8 (amended): the theorem applied at the concrete task
`{dueDate: unparsable, timeNeeded: 1, importance: 3}` with empty schedule
state, `now = 0`, `tz = 0`. -/
theorem priorityForTask_degraded_witness :
    ∃ r, priorityForTask 0 ⟨none, 1, 3⟩ ⟨[], [], fun _ => none⟩ 0
        = some r ∧
      r.timeAvail = 0 ∧
      r.margin = (1 : ℚ) * 1000 ∧
      r.urgency = calculateUrgency ((1 : ℚ) * 1000) ∧
      ((3 / 5000 : ℚ) ≤ 1 → r.urgency = 5) :=
  priorityForTask_degraded 0 ⟨none, 1, 3⟩ ⟨[], [], fun _ => none⟩ 0
    (Or.inl rfl) (by norm_num)

/-- C8 (counterexample to the claim as stated): the task
`{dueDate deadline: instant 0 (already passed), timeNeeded: 0.0005,
importance: 3}` evaluated at `now = 0` gets `timeAvailableHours = 0` but
urgency level 4, not the claimed 5: its margin is
`0.0005 / 0.001 = 0.5 < 0.60`. -/
theorem priorityForTask_urgency_counterexample :
    (priorityForTask 0 ⟨some 0, 1 / 2000, 3⟩ ⟨[], [], fun _ => none⟩ 0).map
        (fun r => r.urgency) = some 4 ∧ (4 : ℤ) ≠ 5 := by
  constructor
  · have hmins : studyMinutesUntil 0 (some 0) ⟨[], [], fun _ => none⟩ 0
        = some 0 := by
      simp [studyMinutesUntil]
    have hmargin : calculateSlackMargin (1 / 2000 : ℚ) ((0 : ℚ) / 60)
        = 1 / 2 := by
      unfold calculateSlackMargin
      rw [zero_div, max_eq_right (by norm_num : (0 : ℚ) ≤ 0.001)]
      norm_num
    have hu : calculateUrgency (1 / 2 : ℚ) = 4 := by
      unfold calculateUrgency
      rw [if_neg (by norm_num), if_neg (by norm_num), if_neg (by norm_num),
        if_pos (by norm_num)]
    rw [priorityForTask, hmins]
    show some (calculateUrgency
      (calculateSlackMargin (1 / 2000 : ℚ) ((0 : ℚ) / 60))) = some 4
    rw [hmargin, hu]
  · decide

end StudyPlan
